import Mathlib

/-!
Verification development for the job-job repository: a retrieval-augmented
job-search assistant.  The Python sources (config.py, document_manager.py,
job_job.py, app.py) are shallowly embedded below: pure computations become
Lean functions, filesystem and remote-API effects become explicit state and
oracle parameters, and exceptions become `Except` values.

Text is modelled as `List Char` inside the chunker (the splitter measures
length with Python `len`) and as `String` elsewhere.
-/

namespace config

/-- Chunk size for document processing (config.py, CHUNK_SIZE = 1000). -/
def CHUNK_SIZE : Nat := 1000

/-- Chunk overlap for document processing (config.py, CHUNK_OVERLAP = 200). -/
def CHUNK_OVERLAP : Nat := 200

end config

namespace RecursiveCharacterTextSplitter

/-- Characters stripped by Python `str.strip()`. -/
def isPySpace (c : Char) : Bool :=
  c = ' ' || c = '\t' || c = '\n' || c = '\r' || c = Char.ofNat 11 || c = Char.ofNat 12

/-- Python `str.strip()`: remove leading and trailing whitespace. -/
def pyStrip (l : List Char) : List Char :=
  ((l.dropWhile isPySpace).reverse.dropWhile isPySpace).reverse

/-- Locate the first occurrence of `sep` in `text`, returning the part before
it and the part after it (the scanning core of Python `str.split` /
`re.split` on an escaped literal separator). -/
def findSep (sep : List Char) : List Char → Option (List Char × List Char)
  | [] => if sep.isPrefixOf ([] : List Char) then some ([], []) else none
  | c :: rest =>
    if sep.isPrefixOf (c :: rest) then some ([], (c :: rest).drop sep.length)
    else (findSep sep rest).map (fun p => (c :: p.1, p.2))

/-- Split `text` at every occurrence of the literal separator `sep`
(Python `re.split` with a non-empty escaped separator).  The fuel argument
bounds the number of splits; `text.length` is always enough fuel because a
non-empty separator consumes at least one character per occurrence. -/
def splitLitF (sep : List Char) : Nat → List Char → List (List Char)
  | 0, text => [text]
  | fuel + 1, text =>
    match findSep sep text with
    | none => [text]
    | some (b, a) => b :: splitLitF sep fuel a

/-- Split on a literal separator (all occurrences). -/
def splitLit (sep text : List Char) : List (List Char) :=
  splitLitF sep text.length text

/-- Embedding of langchain `_split_text_with_regex` with
`keep_separator = True` (the default for `RecursiveCharacterTextSplitter`)
and a literal (escaped) separator: the empty separator explodes the text
into single characters, otherwise the separator is reattached to the front
of the piece that follows it; empty pieces are filtered out. -/
def split_text_with_regex (text sep : List Char) : List (List Char) :=
  let splits :=
    if sep.isEmpty then text.map (fun c => [c])
    else
      match splitLit sep text with
      | [] => []
      | p :: ps => p :: ps.map (fun q => sep ++ q)
  splits.filter (fun s => !s.isEmpty)

/-- Embedding of langchain `TextSplitter._join_docs`: join the pending
pieces with the separator, strip surrounding whitespace
(`strip_whitespace = True`), and drop the result when it is empty. -/
def join_docs (docs : List (List Char)) (sep : List Char) : Option (List Char) :=
  let text := pyStrip (List.intercalate sep docs)
  if text.isEmpty then none else some text

/-- Embedding of the `while` loop inside langchain
`TextSplitter._merge_splits`: pop pieces from the front of the pending
window until the running total is at most `chunk_overlap` and the next
piece of length `dLen` fits in `chunk_size`.  `total` tracks the joined
length of the pending pieces, so it is `0` once the window is empty and the
loop always terminates. -/
def popWhile (sep : List Char) (dLen : Nat) : List (List Char) → Nat → List (List Char) × Nat
  | [], total => ([], total)
  | c :: rest, total =>
    if total > config.CHUNK_OVERLAP ∨
        (total + dLen + sep.length > config.CHUNK_SIZE ∧ total > 0) then
      popWhile sep dLen rest (total - (c.length + if rest.isEmpty then 0 else sep.length))
    else (c :: rest, total)

/-- One iteration of the `for` loop of langchain
`TextSplitter._merge_splits` over the state
(emitted chunks, pending window, joined length of the window). -/
def merge_step (sep : List Char) (acc : List (List Char) × List (List Char) × Nat)
    (d : List Char) : List (List Char) × List (List Char) × Nat :=
  match acc with
  | (docs, cur, total) =>
    if total + d.length + (if cur.isEmpty then 0 else sep.length) > config.CHUNK_SIZE then
      if cur.isEmpty then (docs, [d], d.length)
      else
        (docs ++ (join_docs cur sep).toList,
         (popWhile sep d.length cur total).1 ++ [d],
         (popWhile sep d.length cur total).2 + d.length +
           (if (popWhile sep d.length cur total).1.isEmpty then 0 else sep.length))
    else (docs, cur ++ [d], total + d.length + (if cur.isEmpty then 0 else sep.length))

/-- Embedding of langchain `TextSplitter._merge_splits`: greedily pack the
splits into chunks of joined length at most `chunk_size`, carrying at most
`chunk_overlap` characters over from one chunk into the next. -/
def merge_splits (sep : List Char) (splits : List (List Char)) : List (List Char) :=
  let fin := splits.foldl (merge_step sep) ([], [], 0)
  fin.1 ++ (join_docs fin.2.1 sep).toList

/-- Assembly loop of langchain `RecursiveCharacterTextSplitter._split_text`:
splits shorter than `chunk_size` (`Sum.inl`) accumulate into `good` and are
merged together; an oversized split interrupts the run, flushing the merged
good splits followed by its own (already recursed) chunks (`Sum.inr`).
The merge separator is `""` because `keep_separator = True`. -/
def assemble : List (List Char ⊕ List (List Char)) → List (List Char) → List (List Char)
  | [], good => merge_splits [] good
  | Sum.inl s :: rest, good => assemble rest (good ++ [s])
  | Sum.inr l :: rest, good => merge_splits [] good ++ l ++ assemble rest []

/-- Embedding of langchain `RecursiveCharacterTextSplitter._split_text`.
The source scans the separator list for the first entry that is `""` or
occurs in the text (defaulting to the last entry, with the remaining
entries as the separators for recursion); scanning past a non-matching
separator is the recursive call in the last branch.  Oversized splits are
recursed with the remaining separators, or kept whole when none remain. -/
def split_text_rec : List (List Char) → List Char → List (List Char)
  | [], text => [text]
  | s :: rest, text =>
    if s.isEmpty then
      assemble ((split_text_with_regex text []).map (fun d =>
        if d.length < config.CHUNK_SIZE then Sum.inl d else Sum.inr [d])) []
    else if (findSep s text).isSome then
      assemble ((split_text_with_regex text s).map (fun d =>
        if d.length < config.CHUNK_SIZE then Sum.inl d
        else if rest.isEmpty then Sum.inr [d]
        else Sum.inr (split_text_rec rest d))) []
    else
      match rest with
      | [] => assemble ((split_text_with_regex text s).map (fun d =>
          if d.length < config.CHUNK_SIZE then Sum.inl d else Sum.inr [d])) []
      | _ :: _ => split_text_rec rest text

/-- Default separator list of `RecursiveCharacterTextSplitter`:
paragraph break, line break, space, then character-level. -/
def default_separators : List (List Char) := [['\n', '\n'], ['\n'], [' '], []]

/-- Embedding of `RecursiveCharacterTextSplitter.split_text` as configured
by `DocumentManager.__init__` (chunk_size = 1000, chunk_overlap = 200,
length_function = len, default separators). -/
def split_text (text : List Char) : List (List Char) :=
  split_text_rec default_separators text

/-- Last `n` characters of a list (used to state the spec's overlap claim). -/
def take_right (n : Nat) (l : List Char) : List Char := l.drop (l.length - n)

/-- Formalisation of the spec's words "concatenating the chunks with
overlaps removed": keep the first chunk whole and drop the claimed
`chunk_overlap` characters from the front of every later chunk. -/
def overlap_concat (cs : List (List Char)) : List Char :=
  match cs with
  | [] => []
  | c :: rest => c ++ (rest.map (fun d => d.drop config.CHUNK_OVERLAP)).flatten

end RecursiveCharacterTextSplitter

/-- Python `os.path.splitext` helper: index of the last occurrence of `c`. -/
def rfindIdx (c : Char) (l : List Char) : Option Nat :=
  (l.reverse.findIdx? (fun x => x = c)).map (fun i => l.length - 1 - i)

/-- Embedding of Python `os.path.splitext` (posix): split off the extension
at the last dot of the basename, unless the basename consists only of
leading dots up to that point. -/
def splitext (p : List Char) : List Char × List Char :=
  let sepIndex : Int := match rfindIdx '/' p with | none => -1 | some i => (i : Int)
  let dotIndex : Int := match rfindIdx '.' p with | none => -1 | some i => (i : Int)
  if sepIndex < dotIndex then
    let scanned := (p.drop (sepIndex + 1).toNat).take (dotIndex - sepIndex - 1).toNat
    if scanned.any (fun c => c ≠ '.') then (p.take dotIndex.toNat, p.drop dotIndex.toNat)
    else (p, [])
  else (p, [])

/-- Embedding of Python `os.path.basename` (posix). -/
def basename (p : String) : String :=
  String.mk ((p.toList.reverse.takeWhile (fun c => c ≠ '/')).reverse)

/-- Python `str.lower()` restricted to the ASCII range, which is all the
dispatch in `load_document` compares against. -/
def pyLower (s : String) : String := String.mk (s.toList.map Char.toLower)

/-- A langchain `Document`: extracted text plus metadata.  The only
metadata this application reads or writes is `source_file`. -/
structure Document where
  page_content : List Char
  source_file : String := ""
deriving DecidableEq

/-- A FAISS vector store, modelled by its docstore: the list of document
chunks it holds (embedding vectors are opaque to this application). -/
abbrev VectorStore := List Document

/-- The loader chosen by `DocumentManager.load_document`:
`PyPDFLoader` for `.pdf`, `TextLoader` for `.txt` / `.md`. -/
inductive Loader where
  | pypdf (path : String)
  | text (path : String)
deriving DecidableEq

/-- Oracles for every external effect: document loading, the embedding API
(`FAISS.from_documents`), persistence, the remote completion call made by
the `ConversationalRetrievalChain`, similarity search, and the personal
context file I/O outcomes.  Failures are `Except.error`. -/
structure Env where
  loader_run : Loader → Except String (List Document)
  from_documents : List Document → Except String VectorStore
  save_ok : Bool
  load_local : VectorStore → Except String VectorStore
  llm : String → Except String String
  similarity_search : VectorStore → String → Nat → List Document
  ctx_write_ok : Bool
  ctx_read_ok : Bool

/-- The durable state the application touches: the persisted vector index
directory (`config.VECTOR_STORE_PATH`), the upload directory
(`config.UPLOAD_DIR`), the personal context file
(`config.CONTEXT_FILE_PATH`), and the prompt files under
`config.PROMPT_DIR`. -/
structure FS where
  vectorstoreSaved : Option VectorStore
  uploads : List String
  contextFile : Option String
  prompts : String → Option String

/-- In-memory state of `DocumentManager` (document_manager.py): the
text splitter and embeddings objects are fixed configuration, so only the
vector store field remains. -/
structure DocumentManager where
  vectorstore : Option VectorStore
deriving DecidableEq

namespace DocumentManager

/-- Embedding of `DocumentManager.load_existing_vectorstore`: when an
`index.faiss` is present on disk, try to load it; a load failure is caught
and leaves `vectorstore = None`. -/
def load_existing_vectorstore (env : Env) (fs : FS) (dm : DocumentManager) : DocumentManager :=
  match fs.vectorstoreSaved with
  | none => dm
  | some saved =>
    match env.load_local saved with
    | .ok vs => { dm with vectorstore := some vs }
    | .error _ => { dm with vectorstore := none }

/-- Embedding of `DocumentManager.__init__`: start with `vectorstore = None`
and then attempt to load a previously persisted index. -/
def init (env : Env) (fs : FS) : DocumentManager :=
  load_existing_vectorstore env fs { vectorstore := none }

/-- Extension of a path, as computed by the
`_, ext = os.path.splitext(file_path)` line of `load_document`. -/
def file_ext (file_path : String) : String :=
  String.mk (splitext file_path.toList).2

/-- Extension dispatch of `DocumentManager.load_document`: `.pdf` (case
insensitive) goes to `PyPDFLoader`, `.txt` / `.md` to `TextLoader`, and any
other extension raises `ValueError` naming the extension. -/
def dispatch_loader (file_path : String) : Except String Loader :=
  let ext := file_ext file_path
  if pyLower ext = ".pdf" then .ok (.pypdf file_path)
  else if pyLower ext = ".txt" ∨ pyLower ext = ".md" then .ok (.text file_path)
  else .error ("Unsupported file type: " ++ ext)

/-- Embedding of `DocumentManager.load_document`: dispatch on the file
extension and run the chosen loader. -/
def load_document (run : Loader → Except String (List Document)) (file_path : String) :
    Except String (List Document) :=
  match dispatch_loader file_path with
  | .error e => .error e
  | .ok l => run l

/-- Embedding of `DocumentManager.process_documents`: load each file,
tag its documents with the source file name, swallow (print) per-file
errors, then split everything into chunks. -/
def process_documents (run : Loader → Except String (List Document))
    (file_paths : List String) : List Document :=
  let all_documents := file_paths.foldl (fun acc file_path =>
    match load_document run file_path with
    | .error _ => acc
    | .ok docs => acc ++ docs.map (fun doc => { doc with source_file := basename file_path })) []
  (all_documents.map (fun doc =>
    (RecursiveCharacterTextSplitter.split_text doc.page_content).map
      (fun chunk => { page_content := chunk, source_file := doc.source_file }))).flatten

/-- Embedding of `DocumentManager.create_vectorstore`: return immediately
on an empty batch; otherwise embed the documents (`FAISS.from_documents`),
merge into any existing store, and persist.  All exceptions inside the
`try` are caught and printed, so an embedding failure changes nothing and a
save failure leaves the in-memory store updated but the disk untouched. -/
def create_vectorstore (env : Env) (dm : DocumentManager) (fs : FS)
    (documents : List Document) : DocumentManager × FS :=
  if documents.isEmpty then (dm, fs)
  else
    match env.from_documents documents with
    | .error _ => (dm, fs)
    | .ok newvs =>
      let dm1 :=
        match dm.vectorstore with
        | none => { dm with vectorstore := some newvs }
        | some vs => { dm with vectorstore := some (vs ++ newvs) }
      if env.save_ok then (dm1, { fs with vectorstoreSaved := dm1.vectorstore })
      else (dm1, fs)

/-- Embedding of `DocumentManager.get_vectorstore`. -/
def get_vectorstore (dm : DocumentManager) : Option VectorStore := dm.vectorstore

/-- Embedding of `DocumentManager.get_document_count`: the number of files
in the upload directory. -/
def get_document_count (fs : FS) : Nat := fs.uploads.length

/-- Embedding of `DocumentManager.clear_vectorstore`: drop the in-memory
store, remove the persisted index directory, and delete every uploaded
file. -/
def clear_vectorstore (dm : DocumentManager) (fs : FS) : DocumentManager × FS :=
  ({ dm with vectorstore := none },
   { fs with vectorstoreSaved := none, uploads := [] })

/-- Embedding of `DocumentManager.search_documents`: an absent vector store
yields an empty result; otherwise delegate to FAISS similarity search. -/
def search_documents (env : Env) (dm : DocumentManager) (query : String) (k : Nat := 4) :
    List Document :=
  match dm.vectorstore with
  | none => []
  | some vs => env.similarity_search vs query k

/-- Embedding of `DocumentManager.load_personal_context`: `None` when the
file does not exist or reading it fails (the failure is caught and
printed). -/
def load_personal_context (env : Env) (fs : FS) : Option String :=
  match fs.contextFile with
  | none => none
  | some content => if env.ctx_read_ok then some content else none

/-- Embedding of `DocumentManager.save_personal_context`: overwrite the
context file with `content` and return `True`; a write failure is caught
and returns `False`. -/
def save_personal_context (env : Env) (fs : FS) (content : String) : Bool × FS :=
  if env.ctx_write_ok then (true, { fs with contextFile := some content })
  else (false, fs)

end DocumentManager

/-- In-memory state of `JobSearchAI` (job_job.py): the wrapped
`DocumentManager`, the `ConversationBufferMemory` as a list of
(question, answer) turns, and the `ConversationalRetrievalChain`, present
exactly when `_setup_qa_chain` built one; the chain is modelled by the
vector store its retriever wraps. -/
structure JobSearchAI where
  document_manager : DocumentManager
  memory : List (String × String)
  qa_chain : Option VectorStore
deriving DecidableEq

namespace JobSearchAI

/-- Fixed response of all three orchestrator operations in the
uninitialized state (job_job.py). -/
def please_upload_msg : String :=
  "Please upload your resume and experience documents first."

/-- Embedding of `JobSearchAI._setup_qa_chain`: build the chain only when a
vector store is present; otherwise leave `qa_chain` untouched. -/
def setup_qa_chain (st : JobSearchAI) : JobSearchAI :=
  match st.document_manager.get_vectorstore with
  | some vs => { st with qa_chain := some vs }
  | none => st

/-- Embedding of `JobSearchAI.__init__`: fresh `DocumentManager`, empty
conversation memory, `qa_chain = None`, then `_setup_qa_chain`. -/
def init (env : Env) (fs : FS) : JobSearchAI :=
  setup_qa_chain { document_manager := DocumentManager.init env fs, memory := [], qa_chain := none }

/-- Embedding of `JobSearchAI._get_personal_context`: read the personal
context file, returning `""` when it is missing; wrap non-blank content in
the fixed framing text. -/
def get_personal_context_prompt (fs : FS) : String :=
  match fs.contextFile with
  | none => ""
  | some raw =>
    let context := String.mk (RecursiveCharacterTextSplitter.pyStrip raw.toList)
    if context = "" then "" else "\n\nPersonal Context: " ++ context ++ "\n"

/-- Invocation of the `ConversationalRetrievalChain`: one remote completion
round-trip.  On success the chain's `ConversationBufferMemory` saves the
(question, answer) turn; on failure the exception propagates before
`save_context` runs, so the memory is untouched.  The result triple is
(answer or error, updated session state, number of remote completion
invocations made). -/
def run_qa_chain (env : Env) (st : JobSearchAI) (question : String) :
    Except String String × JobSearchAI × Nat :=
  match env.llm question with
  | .error e => (.error e, st, 1)
  | .ok answer => (.ok answer, { st with memory := st.memory ++ [(question, answer)] }, 1)

/-- Shared tail of the three orchestrator operations: when the chain is
present, prepend any personal context to the query and invoke the chain;
otherwise return the fixed "please upload" message without any remote
call. -/
def answer_query (env : Env) (fs : FS) (st : JobSearchAI) (query : String) :
    Except String String × JobSearchAI × Nat :=
  match st.qa_chain with
  | some _ =>
    let context := get_personal_context_prompt fs
    let modified_query := if context ≠ "" then context ++ " " ++ query else query
    run_qa_chain env st modified_query
  | none => (.ok please_upload_msg, st, 0)

/-- Query text assembled by `JobSearchAI.optimize_resume`. -/
def resume_query (job_description prompt : String) : String :=
  "\n        Analyze my resume for this job description and suggest specific optimizations:\n        \n        Job Description: " ++
    job_description ++ "\n        \n        " ++ prompt ++ "\n        "

/-- Embedding of `JobSearchAI.optimize_resume`: read the task prompt file
(an absent file raises before anything else happens), build the query, and
answer it; the `sections` argument is accepted but never used.  The result
is (answer or propagated exception, state, remote completion calls). -/
def optimize_resume (env : Env) (fs : FS) (st : JobSearchAI)
    (job_description : String) (sections : Option (List String) := none) :
    Except String String × JobSearchAI × Nat :=
  match fs.prompts "resume_optimization.txt" with
  | none => (.error "FileNotFoundError: resume_optimization.txt", st, 0)
  | some prompt => answer_query env fs st (resume_query job_description prompt)

/-- Query text assembled by `JobSearchAI.prepare_interview_questions`. -/
def interview_query (job_description interview_type prompt : String) : String :=
  "\n        Based on this job description: " ++ job_description ++
    "\n        \n        Please help me prepare for a " ++ interview_type ++
    " interview by:\n        \n        " ++ prompt ++ "\n        "

/-- Embedding of `JobSearchAI.prepare_interview_questions`. -/
def prepare_interview_questions (env : Env) (fs : FS) (st : JobSearchAI)
    (job_description : String) (interview_type : String := "general") :
    Except String String × JobSearchAI × Nat :=
  match fs.prompts "interview_prep.txt" with
  | none => (.error "FileNotFoundError: interview_prep.txt", st, 0)
  | some prompt => answer_query env fs st (interview_query job_description interview_type prompt)

/-- Query text assembled by `JobSearchAI.draft_application_response`:
the job description is framed only when it is non-blank. -/
def application_query (question job_description prompt : String) : String :=
  let job_context :=
    if String.mk (RecursiveCharacterTextSplitter.pyStrip job_description.toList) ≠ "" then
      "\n\nJob Description: " ++ job_description
    else ""
  "\n        I\x27m filling out a job application and need help drafting a response to this question: \"" ++
    question ++ "\"\n        \n        Please help me draft an answer that meets these criteria:\n        " ++
    prompt ++ "\n        \n        Here is job description that the company provided:\n        " ++
    job_context ++ "\n        "

/-- Embedding of `JobSearchAI.draft_application_response`. -/
def draft_application_response (env : Env) (fs : FS) (st : JobSearchAI)
    (question : String) (job_description : String := "") :
    Except String String × JobSearchAI × Nat :=
  match fs.prompts "application_question.txt" with
  | none => (.error "FileNotFoundError: application_question.txt", st, 0)
  | some prompt => answer_query env fs st (application_query question job_description prompt)

/-- Embedding of `JobSearchAI.add_documents`: process the files, create or
extend the vector store, and rebuild the chain. -/
def add_documents (env : Env) (st : JobSearchAI) (fs : FS) (file_paths : List String) :
    JobSearchAI × FS :=
  let documents := DocumentManager.process_documents env.loader_run file_paths
  let dmfs := DocumentManager.create_vectorstore env st.document_manager fs documents
  (setup_qa_chain { st with document_manager := dmfs.1 }, dmfs.2)

/-- Embedding of `JobSearchAI.save_personal_context` (delegation). -/
def save_personal_context (env : Env) (st : JobSearchAI) (fs : FS) (content : String) :
    Bool × FS :=
  DocumentManager.save_personal_context env fs content

/-- Embedding of `JobSearchAI.get_personal_context`: the stored context, or
`""` when it is absent or blank. -/
def get_personal_context (env : Env) (fs : FS) : String :=
  match DocumentManager.load_personal_context env fs with
  | none => ""
  | some context => if context ≠ "" then context else ""

/-- Embedding of `JobSearchAI.clear_all_data`: clear the vector store and
uploads, clear the conversation memory, and drop the chain. -/
def clear_all_data (st : JobSearchAI) (fs : FS) : JobSearchAI × FS :=
  let dmfs := DocumentManager.clear_vectorstore st.document_manager fs
  ({ document_manager := dmfs.1, memory := [], qa_chain := none }, dmfs.2)

end JobSearchAI

/-- User-facing operations of the session (section 6 of the spec), as
invoked by app.py on the shared `JobSearchAI` instance. -/
inductive Op where
  | add_documents (file_paths : List String)
  | optimize_resume (job_description : String) (sections : Option (List String))
  | prepare_interview_questions (job_description interview_type : String)
  | draft_application_response (question job_description : String)
  | save_personal_context (content : String)
  | clear_all_data
deriving DecidableEq

/-- State transition of one user-facing operation (the returned answer
strings are dropped; only the session and filesystem state remain). -/
def step (env : Env) (op : Op) (s : JobSearchAI × FS) : JobSearchAI × FS :=
  match op with
  | .add_documents ps => JobSearchAI.add_documents env s.1 s.2 ps
  | .optimize_resume jd sec => ((JobSearchAI.optimize_resume env s.2 s.1 jd sec).2.1, s.2)
  | .prepare_interview_questions jd it =>
      ((JobSearchAI.prepare_interview_questions env s.2 s.1 jd it).2.1, s.2)
  | .draft_application_response q jd =>
      ((JobSearchAI.draft_application_response env s.2 s.1 q jd).2.1, s.2)
  | .save_personal_context c => (s.1, (JobSearchAI.save_personal_context env s.1 s.2 c).2)
  | .clear_all_data => JobSearchAI.clear_all_data s.1 s.2

/-- Readiness invariant of the conversation engine: a chain exists only
when a vector store is present. -/
def ready_invariant (st : JobSearchAI) : Prop :=
  st.qa_chain.isSome → st.document_manager.vectorstore.isSome

/-- Concrete oracle fixture: every remote call fails, context file I/O
succeeds. -/
def env0 : Env :=
  { loader_run := fun _ => .error "offline"
    from_documents := fun ds => .ok ds
    save_ok := true
    load_local := fun vs => .ok vs
    llm := fun _ => .error "offline"
    similarity_search := fun _ _ _ => []
    ctx_write_ok := true
    ctx_read_ok := true }

/-- Concrete filesystem fixture: no persisted index, no uploads, no context
file, and every prompt file readable. -/
def fs0 : FS :=
  { vectorstoreSaved := none
    uploads := []
    contextFile := none
    prompts := fun _ => some "PROMPT" }

/-- Concrete session fixture in the uninitialized state. -/
def st0 : JobSearchAI :=
  { document_manager := { vectorstore := none }, memory := [], qa_chain := none }

/-- Concrete session fixture in the ready state. -/
def st1 : JobSearchAI :=
  { document_manager := { vectorstore := some [] }, memory := [], qa_chain := some [] }

/-- Concrete document text used against the spec's chunking claim: three
600-character paragraphs separated by blank lines (1804 characters). -/
def chunk_cex_text : List Char :=
  List.replicate 600 'x' ++ '\n' :: '\n' ::
    (List.replicate 600 'y' ++ '\n' :: '\n' :: List.replicate 600 'z')

/-- C10: calling `create_vectorstore` with an empty document list is a
no-op — the vector store field and the durable storage (the whole
filesystem state) are left unchanged. -/
theorem create_vectorstore_empty_noop (env : Env) (dm : DocumentManager) (fs : FS) :
    DocumentManager.create_vectorstore env dm fs [] = (dm, fs) := rfl

/-- C3: after `clear_all_data`, from any prior state, the vector store is
absent in memory and on disk, the upload directory is empty (document count
0), the conversation history is empty, and the chain is uninitialized. -/
theorem clear_all_data_resets (st : JobSearchAI) (fs : FS) :
    (JobSearchAI.clear_all_data st fs).1.document_manager.vectorstore = none ∧
    (JobSearchAI.clear_all_data st fs).2.vectorstoreSaved = none ∧
    DocumentManager.get_document_count (JobSearchAI.clear_all_data st fs).2 = 0 ∧
    (JobSearchAI.clear_all_data st fs).1.memory = [] ∧
    (JobSearchAI.clear_all_data st fs).1.qa_chain = none :=
  ⟨rfl, rfl, rfl, rfl, rfl⟩

/-- C1: with no vector index present (and hence no chain), searching
returns the empty list and each of the three orchestrator operations
returns the fixed "please upload" string, leaves the session untouched, and
makes zero remote completion calls; the task prompt files are assumed
readable, since each operation opens its prompt file before checking the
chain. -/
theorem uninitialized_query_graceful (env : Env) (fs : FS) (st : JobSearchAI)
    (q jd it aq : String) (k : Nat) (sections : Option (List String))
    (p1 p2 p3 : String)
    (hvs : st.document_manager.vectorstore = none)
    (hqa : st.qa_chain = none)
    (h1 : fs.prompts "resume_optimization.txt" = some p1)
    (h2 : fs.prompts "interview_prep.txt" = some p2)
    (h3 : fs.prompts "application_question.txt" = some p3) :
    DocumentManager.search_documents env st.document_manager q k = [] ∧
    JobSearchAI.optimize_resume env fs st jd sections =
      (.ok JobSearchAI.please_upload_msg, st, 0) ∧
    JobSearchAI.prepare_interview_questions env fs st jd it =
      (.ok JobSearchAI.please_upload_msg, st, 0) ∧
    JobSearchAI.draft_application_response env fs st aq jd =
      (.ok JobSearchAI.please_upload_msg, st, 0) := by
  refine ⟨?_, ?_, ?_, ?_⟩
  · simp [DocumentManager.search_documents, hvs]
  · simp [JobSearchAI.optimize_resume, h1, JobSearchAI.answer_query, hqa]
  · simp [JobSearchAI.prepare_interview_questions, h2, JobSearchAI.answer_query, hqa]
  · simp [JobSearchAI.draft_application_response, h3, JobSearchAI.answer_query, hqa]

/-- Closed instance of `uninitialized_query_graceful` at concrete fixtures. -/
theorem uninitialized_query_graceful_witness :
    DocumentManager.search_documents env0 st0.document_manager "skills" 4 = [] ∧
    JobSearchAI.optimize_resume env0 fs0 st0 "jd" none =
      (.ok JobSearchAI.please_upload_msg, st0, 0) ∧
    JobSearchAI.prepare_interview_questions env0 fs0 st0 "jd" "general" =
      (.ok JobSearchAI.please_upload_msg, st0, 0) ∧
    JobSearchAI.draft_application_response env0 fs0 st0 "why us" "jd" =
      (.ok JobSearchAI.please_upload_msg, st0, 0) :=
  uninitialized_query_graceful env0 fs0 st0 "skills" "jd" "general" "why us" 4 none
    "PROMPT" "PROMPT" "PROMPT" rfl rfl rfl rfl rfl

/-- C2: in the ready state, when the remote completion call fails, each
orchestrator operation surfaces the failure as an error and returns the
session state unchanged — the failed turn is not appended to the
conversation history, so a retry starts from the same history. -/
theorem remote_failure_preserves_history (env : Env) (fs : FS) (st : JobSearchAI)
    (jd it aq : String) (sections : Option (List String)) (vs : VectorStore)
    (p1 p2 p3 e : String)
    (hqa : st.qa_chain = some vs)
    (hllm : ∀ q, env.llm q = .error e)
    (h1 : fs.prompts "resume_optimization.txt" = some p1)
    (h2 : fs.prompts "interview_prep.txt" = some p2)
    (h3 : fs.prompts "application_question.txt" = some p3) :
    JobSearchAI.optimize_resume env fs st jd sections = (.error e, st, 1) ∧
    JobSearchAI.prepare_interview_questions env fs st jd it = (.error e, st, 1) ∧
    JobSearchAI.draft_application_response env fs st aq jd = (.error e, st, 1) := by
  refine ⟨?_, ?_, ?_⟩
  · simp [JobSearchAI.optimize_resume, h1, JobSearchAI.answer_query, hqa,
      JobSearchAI.run_qa_chain, hllm]
  · simp [JobSearchAI.prepare_interview_questions, h2, JobSearchAI.answer_query, hqa,
      JobSearchAI.run_qa_chain, hllm]
  · simp [JobSearchAI.draft_application_response, h3, JobSearchAI.answer_query, hqa,
      JobSearchAI.run_qa_chain, hllm]

/-- Closed instance of `remote_failure_preserves_history` at concrete
fixtures (the fixture oracle fails every completion call). -/
theorem remote_failure_preserves_history_witness :
    JobSearchAI.optimize_resume env0 fs0 st1 "jd" none = (.error "offline", st1, 1) ∧
    JobSearchAI.prepare_interview_questions env0 fs0 st1 "jd" "general" =
      (.error "offline", st1, 1) ∧
    JobSearchAI.draft_application_response env0 fs0 st1 "why us" "jd" =
      (.error "offline", st1, 1) :=
  remote_failure_preserves_history env0 fs0 st1 "jd" "general" "why us" none []
    "PROMPT" "PROMPT" "PROMPT" "offline" rfl (fun _ => rfl) rfl rfl rfl

/-- C7: when a persisted index exists but loading it fails, the
`DocumentManager` constructor does not crash: it starts with
`vectorstore = None`, from which searching still works (empty result). -/
theorem load_failure_degrades (env : Env) (fs : FS) (saved : VectorStore)
    (e q : String) (k : Nat)
    (hsaved : fs.vectorstoreSaved = some saved)
    (hload : env.load_local saved = .error e) :
    (DocumentManager.init env fs).vectorstore = none ∧
    DocumentManager.search_documents env (DocumentManager.init env fs) q k = [] := by
  have hinit : DocumentManager.init env fs = { vectorstore := none } := by
    simp [DocumentManager.init, DocumentManager.load_existing_vectorstore, hsaved, hload]
  refine ⟨by simp [hinit], by simp [hinit, DocumentManager.search_documents]⟩

/-- Closed instance of `load_failure_degrades` with a corrupt persisted
index. -/
theorem load_failure_degrades_witness :
    (DocumentManager.init { env0 with load_local := fun _ => .error "corrupt" }
        { fs0 with vectorstoreSaved := some [] }).vectorstore = none ∧
    DocumentManager.search_documents { env0 with load_local := fun _ => .error "corrupt" }
      (DocumentManager.init { env0 with load_local := fun _ => .error "corrupt" }
        { fs0 with vectorstoreSaved := some [] }) "skills" 4 = [] :=
  load_failure_degrades { env0 with load_local := fun _ => .error "corrupt" }
    { fs0 with vectorstoreSaved := some [] } [] "corrupt" "skills" 4 rfl rfl

/-- C9: the personal context file is overwritten wholesale — whenever
`save_personal_context` reports success, a subsequent (successful) load
returns exactly the saved string, whatever the file held before; and
`get_personal_context` returns `""`, not an error, when the file does not
exist. -/
theorem personal_context_roundtrip (env : Env) (fs : FS) (c : String)
    (hwrite : (DocumentManager.save_personal_context env fs c).1 = true)
    (hread : env.ctx_read_ok = true) :
    DocumentManager.load_personal_context env
      (DocumentManager.save_personal_context env fs c).2 = some c ∧
    (fs.contextFile = none → JobSearchAI.get_personal_context env fs = "") := by
  have hw : env.ctx_write_ok = true := by
    by_contra hw
    simp [DocumentManager.save_personal_context, hw] at hwrite
  constructor
  · simp [DocumentManager.save_personal_context, hw,
      DocumentManager.load_personal_context, hread]
  · intro hnone
    simp [JobSearchAI.get_personal_context, DocumentManager.load_personal_context, hnone]

/-- Closed instance of `personal_context_roundtrip` at concrete fixtures. -/
theorem personal_context_roundtrip_witness :
    DocumentManager.load_personal_context env0
      (DocumentManager.save_personal_context env0 fs0 "I like trains").2 =
        some "I like trains" ∧
    (fs0.contextFile = none → JobSearchAI.get_personal_context env0 fs0 = "") :=
  personal_context_roundtrip env0 fs0 "I like trains" rfl rfl

/-- C5: a file whose load fails does not abort the batch —
`process_documents` on a batch containing the failing file equals
`process_documents` on the batch with that file removed, so every other
file still contributes its chunks. -/
theorem process_documents_skips_failures (run : Loader → Except String (List Document))
    (pre post : List String) (bad e : String)
    (hbad : DocumentManager.load_document run bad = .error e) :
    DocumentManager.process_documents run (pre ++ bad :: post) =
      DocumentManager.process_documents run (pre ++ post) := by
  simp only [DocumentManager.process_documents, List.foldl_append, List.foldl_cons, hbad]

/-- Closed instance of `process_documents_skips_failures`: a corrupt PDF in
the middle of a batch of text files. -/
theorem process_documents_skips_failures_witness :
    DocumentManager.process_documents
      (fun l => match l with
        | .pypdf _ => .error "corrupt"
        | .text _ => .ok [{ page_content := ['h', 'i'] }])
      (["a.txt"] ++ "cv.pdf" :: ["b.txt"]) =
    DocumentManager.process_documents
      (fun l => match l with
        | .pypdf _ => .error "corrupt"
        | .text _ => .ok [{ page_content := ['h', 'i'] }])
      (["a.txt"] ++ ["b.txt"]) :=
  process_documents_skips_failures _ ["a.txt"] ["b.txt"] "cv.pdf" "corrupt" rfl

/-- C6: `load_document` dispatches to a loader exactly when the lowered
file extension is `.pdf`, `.txt` or `.md`, and for any other extension it
fails with an unsupported-type error naming the extension. -/
theorem load_document_dispatch (p : String) :
    ((∃ l, DocumentManager.dispatch_loader p = .ok l) ↔
      pyLower (DocumentManager.file_ext p) ∈ [".pdf", ".txt", ".md"]) ∧
    (pyLower (DocumentManager.file_ext p) ∉ [".pdf", ".txt", ".md"] →
      DocumentManager.dispatch_loader p =
        .error ("Unsupported file type: " ++ DocumentManager.file_ext p)) := by
  unfold DocumentManager.dispatch_loader
  by_cases h1 : pyLower (DocumentManager.file_ext p) = ".pdf" <;>
    by_cases h2 : pyLower (DocumentManager.file_ext p) = ".txt" <;>
    by_cases h3 : pyLower (DocumentManager.file_ext p) = ".md" <;>
    simp [h1, h2, h3]

/-- Closed instance of `load_document_dispatch`: a `.docx` upload is
rejected with the unsupported-type error, and an uppercase `.PDF` is
accepted. -/
theorem load_document_dispatch_witness :
    DocumentManager.dispatch_loader "resume.docx" =
      .error ("Unsupported file type: " ++ DocumentManager.file_ext "resume.docx") ∧
    pyLower (DocumentManager.file_ext "resume.PDF") ∈ [".pdf", ".txt", ".md"] :=
  ⟨(load_document_dispatch "resume.docx").2 (by decide),
   (load_document_dispatch "resume.PDF").1.mp ⟨.pypdf "resume.PDF", rfl⟩⟩

theorem setup_qa_chain_dm (st : JobSearchAI) :
    (JobSearchAI.setup_qa_chain st).document_manager = st.document_manager := by
  cases h : st.document_manager.get_vectorstore <;> simp [JobSearchAI.setup_qa_chain, h]

theorem setup_qa_chain_ready (st : JobSearchAI)
    (h : ((JobSearchAI.setup_qa_chain st).document_manager.vectorstore).isSome) :
    ((JobSearchAI.setup_qa_chain st).qa_chain).isSome := by
  rw [setup_qa_chain_dm] at h
  obtain ⟨vs, hvs⟩ := Option.isSome_iff_exists.mp h
  simp [JobSearchAI.setup_qa_chain, DocumentManager.get_vectorstore, hvs]

theorem setup_qa_chain_keeps_ready (st : JobSearchAI) (h : st.qa_chain.isSome) :
    ((JobSearchAI.setup_qa_chain st).qa_chain).isSome := by
  cases hvs : st.document_manager.get_vectorstore <;>
    simp [JobSearchAI.setup_qa_chain, hvs, h]

theorem setup_qa_chain_inv (st : JobSearchAI) (h : ready_invariant st) :
    ready_invariant (JobSearchAI.setup_qa_chain st) := by
  cases hvs : st.document_manager.get_vectorstore with
  | none => simpa [JobSearchAI.setup_qa_chain, hvs] using h
  | some vs =>
    intro _
    rw [setup_qa_chain_dm]
    simpa [DocumentManager.get_vectorstore] using congrArg Option.isSome hvs

theorem create_vectorstore_mono (env : Env) (dm : DocumentManager) (fs : FS)
    (docs : List Document) (h : dm.vectorstore.isSome) :
    ((DocumentManager.create_vectorstore env dm fs docs).1.vectorstore).isSome := by
  obtain ⟨vs, hvs⟩ := Option.isSome_iff_exists.mp h
  unfold DocumentManager.create_vectorstore
  by_cases hemp : docs.isEmpty <;> simp [hemp, h]
  cases henv : env.from_documents docs with
  | error e => simp [h]
  | ok newvs =>
    by_cases hs : env.save_ok <;> simp [hs, hvs]

theorem run_qa_chain_frame (env : Env) (st : JobSearchAI) (q : String) :
    (JobSearchAI.run_qa_chain env st q).2.1.qa_chain = st.qa_chain ∧
    (JobSearchAI.run_qa_chain env st q).2.1.document_manager = st.document_manager := by
  unfold JobSearchAI.run_qa_chain
  cases env.llm q <;> exact ⟨rfl, rfl⟩

theorem answer_query_frame (env : Env) (fs : FS) (st : JobSearchAI) (q : String) :
    (JobSearchAI.answer_query env fs st q).2.1.qa_chain = st.qa_chain ∧
    (JobSearchAI.answer_query env fs st q).2.1.document_manager = st.document_manager := by
  unfold JobSearchAI.answer_query
  cases hqa : st.qa_chain with
  | none => exact ⟨hqa, rfl⟩
  | some vs =>
    have h := run_qa_chain_frame env st
      (if JobSearchAI.get_personal_context_prompt fs ≠ "" then
        JobSearchAI.get_personal_context_prompt fs ++ " " ++ q else q)
    exact ⟨h.1.trans hqa, h.2⟩

theorem optimize_resume_frame (env : Env) (fs : FS) (st : JobSearchAI)
    (jd : String) (sec : Option (List String)) :
    (JobSearchAI.optimize_resume env fs st jd sec).2.1.qa_chain = st.qa_chain ∧
    (JobSearchAI.optimize_resume env fs st jd sec).2.1.document_manager =
      st.document_manager := by
  unfold JobSearchAI.optimize_resume
  cases fs.prompts "resume_optimization.txt" with
  | none => exact ⟨rfl, rfl⟩
  | some p => exact answer_query_frame env fs st _

theorem prepare_interview_questions_frame (env : Env) (fs : FS) (st : JobSearchAI)
    (jd it : String) :
    (JobSearchAI.prepare_interview_questions env fs st jd it).2.1.qa_chain = st.qa_chain ∧
    (JobSearchAI.prepare_interview_questions env fs st jd it).2.1.document_manager =
      st.document_manager := by
  unfold JobSearchAI.prepare_interview_questions
  cases fs.prompts "interview_prep.txt" with
  | none => exact ⟨rfl, rfl⟩
  | some p => exact answer_query_frame env fs st _

theorem draft_application_response_frame (env : Env) (fs : FS) (st : JobSearchAI)
    (q jd : String) :
    (JobSearchAI.draft_application_response env fs st q jd).2.1.qa_chain = st.qa_chain ∧
    (JobSearchAI.draft_application_response env fs st q jd).2.1.document_manager =
      st.document_manager := by
  unfold JobSearchAI.draft_application_response
  cases fs.prompts "application_question.txt" with
  | none => exact ⟨rfl, rfl⟩
  | some p => exact answer_query_frame env fs st _

/-- C8: the conversation engine is a two-state machine.  Every operation
preserves the invariant that a chain exists only when a vector store is
present; no operation other than the explicit full clear takes the engine
out of the ready state; the clear always does; and after an ingestion that
leaves a vector store present the chain is present (the transition to
ready happens with the first successful ingestion). -/
theorem engine_two_state_machine (env : Env) (op : Op) (s : JobSearchAI × FS) :
    (ready_invariant s.1 → ready_invariant (step env op s).1) ∧
    (op ≠ Op.clear_all_data → s.1.qa_chain.isSome → ((step env op s).1.qa_chain).isSome) ∧
    ((step env Op.clear_all_data s).1.qa_chain = none ∧
      (step env Op.clear_all_data s).1.document_manager.vectorstore = none) ∧
    (∀ ps, ((step env (Op.add_documents ps) s).1.document_manager.vectorstore).isSome →
      ((step env (Op.add_documents ps) s).1.qa_chain).isSome) := by
  refine ⟨?_, ?_, ⟨rfl, rfl⟩, fun ps => setup_qa_chain_ready _⟩
  · intro hinv
    cases op with
    | add_documents ps =>
      apply setup_qa_chain_inv
      intro hq
      exact create_vectorstore_mono env s.1.document_manager s.2 _ (hinv hq)
    | optimize_resume jd sec =>
      intro hq
      have hfr := optimize_resume_frame env s.2 s.1 jd sec
      rw [show (step env (Op.optimize_resume jd sec) s).1 =
        (JobSearchAI.optimize_resume env s.2 s.1 jd sec).2.1 from rfl] at hq ⊢
      rw [hfr.1] at hq
      rw [hfr.2]
      exact hinv hq
    | prepare_interview_questions jd it =>
      intro hq
      have hfr := prepare_interview_questions_frame env s.2 s.1 jd it
      rw [show (step env (Op.prepare_interview_questions jd it) s).1 =
        (JobSearchAI.prepare_interview_questions env s.2 s.1 jd it).2.1 from rfl] at hq ⊢
      rw [hfr.1] at hq
      rw [hfr.2]
      exact hinv hq
    | draft_application_response q jd =>
      intro hq
      have hfr := draft_application_response_frame env s.2 s.1 q jd
      rw [show (step env (Op.draft_application_response q jd) s).1 =
        (JobSearchAI.draft_application_response env s.2 s.1 q jd).2.1 from rfl] at hq ⊢
      rw [hfr.1] at hq
      rw [hfr.2]
      exact hinv hq
    | save_personal_context c => exact hinv
    | clear_all_data => intro hq; simp [step, JobSearchAI.clear_all_data] at hq
  · intro hne hq
    cases op with
    | add_documents ps => exact setup_qa_chain_keeps_ready _ hq
    | optimize_resume jd sec =>
      simpa [step, (optimize_resume_frame env s.2 s.1 jd sec).1] using hq
    | prepare_interview_questions jd it =>
      simpa [step, (prepare_interview_questions_frame env s.2 s.1 jd it).1] using hq
    | draft_application_response q jd =>
      simpa [step, (draft_application_response_frame env s.2 s.1 q jd).1] using hq
    | save_personal_context c => exact hq
    | clear_all_data => exact absurd rfl hne

/-- Closed instance of `engine_two_state_machine` at concrete fixtures. -/
theorem engine_two_state_machine_witness :
    ready_invariant (step env0 (Op.optimize_resume "jd" none) (st0, fs0)).1 ∧
    ((step env0 Op.clear_all_data (st1, fs0)).1.qa_chain = none ∧
      (step env0 Op.clear_all_data (st1, fs0)).1.document_manager.vectorstore = none) :=
  ⟨(engine_two_state_machine env0 (Op.optimize_resume "jd" none) (st0, fs0)).1
      (fun h => by simp [st0] at h),
   (engine_two_state_machine env0 Op.clear_all_data (st1, fs0)).2.2.1⟩

namespace RecursiveCharacterTextSplitter

theorem dropWhile_length_le (p : Char → Bool) (l : List Char) :
    (l.dropWhile p).length ≤ l.length := by
  induction l with
  | nil => simp
  | cons c cs ih =>
    rw [List.dropWhile_cons]
    split <;> simp <;> omega

theorem pyStrip_length_le (l : List Char) : (pyStrip l).length ≤ l.length := by
  unfold pyStrip
  calc ((l.dropWhile isPySpace).reverse.dropWhile isPySpace).reverse.length
      = ((l.dropWhile isPySpace).reverse.dropWhile isPySpace).length := List.length_reverse _
    _ ≤ (l.dropWhile isPySpace).reverse.length := dropWhile_length_le _ _
    _ = (l.dropWhile isPySpace).length := List.length_reverse _
    _ ≤ l.length := dropWhile_length_le _ _

theorem flatten_intersperse_nil (l : List (List Char)) :
    (List.intersperse ([] : List Char) l).flatten = l.flatten := by
  induction l with
  | nil => rfl
  | cons x xs ih =>
    cases xs with
    | nil => rfl
    | cons y ys =>
      rw [List.intersperse_cons₂] at *
      simp only [List.flatten_cons] at ih ⊢
      rw [ih]
      simp

theorem intercalate_nil_eq_flatten (l : List (List Char)) :
    List.intercalate ([] : List Char) l = l.flatten := by
  simp [List.intercalate, flatten_intersperse_nil]

theorem join_docs_nil_length_le (cur : List (List Char)) (doc : List Char)
    (h : join_docs cur [] = some doc) :
    doc.length ≤ ((cur.map List.length).sum) := by
  have hle : (pyStrip (List.intercalate ([] : List Char) cur)).length ≤
      (cur.map List.length).sum := by
    calc (pyStrip (List.intercalate ([] : List Char) cur)).length
        ≤ (List.intercalate ([] : List Char) cur).length := pyStrip_length_le _
      _ = (cur.map List.length).sum := by
          rw [intercalate_nil_eq_flatten, List.length_flatten]
  cases hemp : (pyStrip (List.intercalate ([] : List Char) cur)).isEmpty with
  | true => simp [join_docs, hemp] at h
  | false =>
    simp [join_docs, hemp] at h
    exact h ▸ hle

theorem popWhile_nil_spec (dLen : Nat) (cur : List (List Char)) (total : Nat)
    (h : total = ((cur.map List.length).sum)) :
    (popWhile [] dLen cur total).2 =
      (((popWhile [] dLen cur total).1.map List.length).sum) ∧
    ((popWhile [] dLen cur total).1 = [] ∨
      ((popWhile [] dLen cur total).2 ≤ config.CHUNK_OVERLAP ∧
        ((popWhile [] dLen cur total).2 + dLen ≤ config.CHUNK_SIZE ∨
          (popWhile [] dLen cur total).2 = 0))) := by
  induction cur generalizing total with
  | nil => exact ⟨h, Or.inl rfl⟩
  | cons c rest ih =>
    rw [popWhile]
    split
    · apply ih
      simp only [List.map_cons, List.sum_cons] at h
      simp only [List.length_nil, ite_self]
      omega
    · refine ⟨h, Or.inr ?_⟩
      rename_i hcond
      push_neg at hcond
      simp only [List.length_nil] at hcond
      omega

theorem merge_step_nil_inv (docs cur : List (List Char)) (total : Nat) (d : List Char)
    (hd : d.length < config.CHUNK_SIZE)
    (hdocs : ∀ c ∈ docs, c.length ≤ config.CHUNK_SIZE)
    (htot : total = ((cur.map List.length).sum))
    (hle : total ≤ config.CHUNK_SIZE) :
    (∀ c ∈ (merge_step [] (docs, cur, total) d).1, c.length ≤ config.CHUNK_SIZE) ∧
    (merge_step [] (docs, cur, total) d).2.2 =
      (((merge_step [] (docs, cur, total) d).2.1.map List.length).sum) ∧
    (merge_step [] (docs, cur, total) d).2.2 ≤ config.CHUNK_SIZE := by
  cases cur with
  | nil =>
    simp only [List.map_nil, List.sum_nil] at htot
    subst htot
    simp only [merge_step, List.isEmpty_nil, List.length_nil, ite_self, if_true]
    split
    · rename_i hover
      exact absurd hover (by omega)
    · exact ⟨hdocs, by dsimp only; simp, by dsimp only; omega⟩
  | cons e es =>
    simp only [merge_step, List.isEmpty_cons, List.length_nil, ite_self,
      Bool.false_eq_true, if_false]
    split
    · rename_i hover
      obtain ⟨hpw_sum, hpw_cond⟩ := popWhile_nil_spec d.length (e :: es) total htot
      refine ⟨?_, ?_, ?_⟩
      · intro c hc
        rcases List.mem_append.mp hc with hc | hc
        · exact hdocs c hc
        · rw [Option.mem_toList] at hc
          have := join_docs_nil_length_le (e :: es) c hc
          omega
      · dsimp only
        simp [hpw_sum, List.map_append, List.sum_append]
      · dsimp only
        rcases hpw_cond with hnil | ⟨hov, hfit⟩
        · rw [hnil] at hpw_sum
          simp at hpw_sum
          omega
        · omega
    · rename_i hover
      refine ⟨hdocs, ?_, ?_⟩
      · dsimp only
        simp [htot, List.map_append, List.sum_append]
        omega
      · dsimp only
        omega

theorem merge_foldl_inv (splits : List (List Char))
    (acc : List (List Char) × List (List Char) × Nat)
    (hs : ∀ d ∈ splits, d.length < config.CHUNK_SIZE)
    (h1 : ∀ c ∈ acc.1, c.length ≤ config.CHUNK_SIZE)
    (h2 : acc.2.2 = ((acc.2.1.map List.length).sum))
    (h3 : acc.2.2 ≤ config.CHUNK_SIZE) :
    (∀ c ∈ (splits.foldl (merge_step []) acc).1, c.length ≤ config.CHUNK_SIZE) ∧
    (splits.foldl (merge_step []) acc).2.2 =
      (((splits.foldl (merge_step []) acc).2.1.map List.length).sum) ∧
    (splits.foldl (merge_step []) acc).2.2 ≤ config.CHUNK_SIZE := by
  induction splits generalizing acc with
  | nil => exact ⟨h1, h2, h3⟩
  | cons d ds ih =>
    rw [List.foldl_cons]
    obtain ⟨g1, g2, g3⟩ :=
      merge_step_nil_inv acc.1 acc.2.1 acc.2.2 d (hs d (List.mem_cons_self d ds)) h1 h2 h3
    exact ih _ (fun x hx => hs x (List.mem_cons_of_mem d hx)) g1 g2 g3

theorem merge_splits_nil_bound (splits : List (List Char))
    (hs : ∀ d ∈ splits, d.length < config.CHUNK_SIZE) :
    ∀ c ∈ merge_splits [] splits, c.length ≤ config.CHUNK_SIZE := by
  intro c hc
  unfold merge_splits at hc
  obtain ⟨g1, g2, g3⟩ :=
    merge_foldl_inv splits ([], [], 0) hs (by simp) rfl (by norm_num [config.CHUNK_SIZE])
  rcases List.mem_append.mp hc with hc | hc
  · exact g1 c hc
  · rw [Option.mem_toList] at hc
    have := join_docs_nil_length_le _ c hc
    omega

theorem assemble_bound (l : List (List Char ⊕ List (List Char))) :
    ∀ good : List (List Char),
      (∀ x ∈ l, (∀ s, x = Sum.inl s → s.length < config.CHUNK_SIZE) ∧
        (∀ b, x = Sum.inr b → ∀ c ∈ b, c.length ≤ config.CHUNK_SIZE)) →
      (∀ d ∈ good, d.length < config.CHUNK_SIZE) →
      ∀ c ∈ assemble l good, c.length ≤ config.CHUNK_SIZE := by
  induction l with
  | nil => intro good _ hg; exact merge_splits_nil_bound good hg
  | cons x rest ih =>
    intro good hl hg c hc
    cases x with
    | inl s =>
      rw [assemble] at hc
      refine ih (good ++ [s]) (fun y hy => hl y (List.mem_cons_of_mem _ hy)) ?_ c hc
      intro d hd
      rcases List.mem_append.mp hd with hd | hd
      · exact hg d hd
      · rw [List.mem_singleton] at hd
        subst hd
        exact (hl _ (List.mem_cons_self _ rest)).1 d rfl
    | inr b =>
      rw [assemble] at hc
      rcases List.mem_append.mp hc with hc | hc
      · rcases List.mem_append.mp hc with hc | hc
        · exact merge_splits_nil_bound good hg c hc
        · exact (hl _ (List.mem_cons_self _ rest)).2 b rfl c hc
      · exact ih [] (fun y hy => hl y (List.mem_cons_of_mem _ hy)) (by simp) c hc

theorem split_regex_nil_singleton (text : List Char) :
    ∀ d ∈ split_text_with_regex text [], d.length = 1 := by
  intro d hd
  unfold split_text_with_regex at hd
  simp only [List.isEmpty_nil, if_true] at hd
  rw [List.mem_filter] at hd
  obtain ⟨c, _, rfl⟩ := List.mem_map.mp hd.1
  rfl

theorem split_text_rec_bound :
    ∀ (seps : List (List Char)), [] ∈ seps →
      ∀ text, ∀ c ∈ split_text_rec seps text, c.length ≤ config.CHUNK_SIZE := by
  intro seps
  induction seps with
  | nil => intro h; cases h
  | cons s rest ih =>
    intro hmem text c hc
    simp only [split_text_rec] at hc
    split at hc
    · refine assemble_bound _ [] ?_ (by simp) c hc
      intro x hx
      obtain ⟨d, hd, rfl⟩ := List.mem_map.mp hx
      have hone := split_regex_nil_singleton text d hd
      have hlt : d.length < config.CHUNK_SIZE := by
        rw [hone]; norm_num [config.CHUNK_SIZE]
      rw [if_pos hlt]
      refine ⟨?_, ?_⟩
      · intro s' hs'
        cases hs'
        exact hlt
      · intro b hb
        cases hb
    · rename_i hsEmpty
      have hsne : s ≠ [] := fun h => hsEmpty (by rw [h]; rfl)
      have hmemrest : [] ∈ rest := by
        rcases List.mem_cons.mp hmem with h | h
        · exact absurd h.symm hsne
        · exact h
      have hrestne : rest ≠ [] := fun h => by rw [h] at hmemrest; cases hmemrest
      have hrestE : rest.isEmpty = false := by
        cases rest with
        | nil => exact absurd rfl hrestne
        | cons r rs => rfl
      split at hc
      · refine assemble_bound _ [] ?_ (by simp) c hc
        intro x hx
        obtain ⟨d, hd, rfl⟩ := List.mem_map.mp hx
        by_cases hdlen : d.length < config.CHUNK_SIZE
        · rw [if_pos hdlen]
          refine ⟨?_, ?_⟩
          · intro s' hs'
            cases hs'
            exact hdlen
          · intro b hb
            cases hb
        · rw [if_neg hdlen, hrestE]
          simp only [Bool.false_eq_true, if_false]
          refine ⟨?_, ?_⟩
          · intro s' hs'
            cases hs'
          · intro b hb
            cases hb
            exact ih hmemrest d
      · cases rest with
        | nil => exact absurd rfl hrestne
        | cons r rs => exact ih hmemrest text c hc

/-- C4 (amended claim): every chunk produced by the configured splitter has
length at most `chunk_size` (1000).  The exact-200-overlap and exact
reconstruction parts of the original claim are refuted by
`chunking_claim_counterexample`. -/
theorem chunk_length_le_chunk_size (text : List Char) :
    ∀ c ∈ split_text text, c.length ≤ config.CHUNK_SIZE :=
  split_text_rec_bound default_separators (by decide) text

/-- Closed instance of `chunk_length_le_chunk_size`. -/
theorem chunk_length_le_chunk_size_witness :
    List.length ['h', 'i'] ≤ config.CHUNK_SIZE :=
  chunk_length_le_chunk_size ['h', 'i'] ['h', 'i'] (by decide)

set_option maxRecDepth 10000 in
/-- C4 (counterexample): for the three-paragraph text `chunk_cex_text`, the
spec's chunking claim fails — the splitter returns the three stripped
paragraphs, consecutive chunks (including a non-final pair) share no
200-character overlap, and concatenation with overlaps removed does not
reconstruct the text (the blank lines are gone). -/
theorem chunking_claim_counterexample :
    ¬ ((∀ c ∈ split_text chunk_cex_text, c.length ≤ config.CHUNK_SIZE) ∧
      (∀ p ∈ ((split_text chunk_cex_text).zip (split_text chunk_cex_text).tail).dropLast,
        take_right config.CHUNK_OVERLAP p.1 = p.2.take config.CHUNK_OVERLAP) ∧
      overlap_concat (split_text chunk_cex_text) = chunk_cex_text) := by
  decide

end RecursiveCharacterTextSplitter
